import Mathlib

/-!
Shallow embedding of `src/api/GitlabCIClient.ts` from the
`backstage-plugin-gitlab` repository, together with proofs about the
behaviour of its client logic: the proxy request executor (`callApi`),
the resource accessors, contributor enrichment (`getUserProfilesData`),
ownership resolution (`getCodeOwners`) and user lookup (`getUserDetail`).

JavaScript strings are modelled as Lean `String`s (operations such as
`startsWith`/`slice` are re-implemented over the character list so that
everything reduces in the kernel); `undefined`/`null` are modelled with
`Option`; the network (`fetch` composed with the JSON decode of the body)
is an explicit parameter mapping a request URL to a status code and an
already-decoded body, mirroring the unchecked `as T` cast of the source.
-/

namespace GitlabCI

/-- JS `s.startsWith(pre)` (character-wise). -/
def jsStartsWith (s pre : String) : Bool :=
  pre.data.isPrefixOf s.data

/-- JS `s.endsWith(suf)` (character-wise). -/
def jsEndsWith (s suf : String) : Bool :=
  suf.data.reverse.isPrefixOf s.data.reverse

/-- JS `s.slice(n)` for a non-negative index: drop the first `n` characters. -/
def jsSlice (s : String) (n : Nat) : String :=
  String.mk (s.data.drop n)

/-- JS string interpolation of a value that may be `undefined`:
`undefined` prints as the string `"undefined"`. -/
def jsShowOpt (o : Option String) : String :=
  match o with
  | some s => s
  | none => "undefined"

/-- JS `a || b` on strings: the empty string is falsy and falls through
to the default. -/
def jsOrString (a : Option String) (b : String) : String :=
  match a with
  | some s => if s = "" then b else s
  | none => b

/-- A value of a query mapping handed to `URLSearchParams`: the source
passes strings, numbers, and (possibly) `undefined`. -/
inductive QueryVal where
  | str (s : String)
  | num (n : Int)
  | undef
deriving DecidableEq, Repr

/-- The ToUSVString conversion applied by the WHATWG `record<USVString,
USVString>` binding when `URLSearchParams` is constructed from an object:
numbers print in decimal and `undefined` prints as `"undefined"`. -/
def QueryVal.toJsString : QueryVal → String
  | .str s => s
  | .num n => toString n
  | .undef => "undefined"

/-- UTF-8 encoding of a code point, as a list of byte values. -/
def utf8Bytes (n : Nat) : List Nat :=
  if n < 0x80 then [n]
  else if n < 0x800 then [0xC0 + n / 64, 0x80 + n % 64]
  else if n < 0x10000 then [0xE0 + n / 4096, 0x80 + (n / 64) % 64, 0x80 + n % 64]
  else [0xF0 + n / 262144, 0x80 + (n / 4096) % 64, 0x80 + (n / 64) % 64, 0x80 + n % 64]

/-- The UTF-8 bytes of a string. -/
def stringBytes (s : String) : List Nat :=
  s.data.flatMap (fun c => utf8Bytes c.toNat)

/-- Upper-case hexadecimal digit. -/
def hexDigitChar (n : Nat) : Char :=
  if n < 10 then Char.ofNat (48 + n) else Char.ofNat (55 + n)

/-- `%XX` escape of one byte. -/
def percentEscape (b : Nat) : String :=
  String.mk [Char.ofNat 37, hexDigitChar (b / 16), hexDigitChar (b % 16)]

/-- Bytes left verbatim by the `application/x-www-form-urlencoded`
serializer: ASCII alphanumerics and `*`, `-`, `.`, `_`. -/
def isFormSafeByte (b : Nat) : Bool :=
  (65 ≤ b && b ≤ 90) || (97 ≤ b && b ≤ 122) || (48 ≤ b && b ≤ 57) ||
  b == 42 || b == 45 || b == 46 || b == 95

/-- One byte of `application/x-www-form-urlencoded` output: space becomes
`+`, safe bytes stay, everything else is percent-escaped. -/
def formEncodeByte (b : Nat) : String :=
  if b = 32 then "+"
  else if isFormSafeByte b then String.mk [Char.ofNat b]
  else percentEscape b

/-- `application/x-www-form-urlencoded` serialization of one string. -/
def formEncodeString (s : String) : String :=
  String.join ((stringBytes s).map formEncodeByte)

/-- `new URLSearchParams(query).toString()`: every own enumerable entry of
the record is serialized as `name=value` (values converted with
ToUSVString, so `undefined` yields the literal text `undefined`), pairs
joined with `&`, in insertion order. -/
def urlSearchParamsToString (query : List (String × QueryVal)) : String :=
  String.intercalate "&"
    (query.map (fun p => formEncodeString p.1 ++ "=" ++ formEncodeString p.2.toJsString))

/-- Bytes left verbatim by JS `encodeURI`: ASCII alphanumerics plus
`; , / ? : @ & = + $ - _ . ! ~ * ' ( ) #`. -/
def isEncodeURISafeByte (b : Nat) : Bool :=
  (65 ≤ b && b ≤ 90) || (97 ≤ b && b ≤ 122) || (48 ≤ b && b ≤ 57) ||
  b == 59 || b == 44 || b == 47 || b == 63 || b == 58 || b == 64 ||
  b == 38 || b == 61 || b == 43 || b == 36 || b == 45 || b == 95 ||
  b == 46 || b == 33 || b == 126 || b == 42 || b == 39 || b == 40 ||
  b == 41 || b == 35

/-- JS `encodeURI`: percent-escapes the UTF-8 bytes of every character
outside the unreserved-plus-reserved set. -/
def encodeURI (s : String) : String :=
  String.join ((stringBytes s).map (fun b =>
    if isEncodeURISafeByte b then String.mk [Char.ofNat b] else percentEscape b))

/-- An HTTP response as the executor observes it: the status code and the
body, already decoded at the type the call site casts to (`as T`). -/
structure HttpResponse (α : Type) where
  status : Nat
  body : α

/-- The network: a map from the full request URL to the response.  Models
`fetch` plus the body decode. -/
def Net (α : Type) : Type := String → HttpResponse α

/-- The state of a constructed `GitlabCIClient`: the resolved value of
`discoveryApi.getBaseUrl('proxy')` plus the three configuration fields. -/
structure GitlabCIClient where
  discoveryBase : String
  baseUrl : String
  proxyPath : String
  codeOwnersPath : String
deriving DecidableEq, Repr

/-- The constructor: `baseUrl` defaults to `https://gitlab.com/` and is
normalized to end with `/`; `proxyPath` and `codeOwnersPath` default via
`||` (so the empty string also falls back). -/
def GitlabCIClient.make (discoveryBase : String)
    (baseUrl proxyPath codeOwnersPath : Option String) : GitlabCIClient :=
  let b := baseUrl.getD "https://gitlab.com/"
  { discoveryBase := discoveryBase
    baseUrl := if jsEndsWith b "/" then b else b ++ "/"
    proxyPath := jsOrString proxyPath "/gitlabci"
    codeOwnersPath := jsOrString codeOwnersPath "CODEOWNERS" }

/-- The URL `callApi` issues: `{proxyBase}{proxyPath}/{path}?{query}`. -/
def requestUrl (c : GitlabCIClient) (path : String)
    (query : List (String × QueryVal)) : String :=
  c.discoveryBase ++ c.proxyPath ++ "/" ++ path ++ "?" ++ urlSearchParamsToString query

/-- `callApi`: issue the request; on status 200 return the decoded body,
on any other status return `null`. -/
def callApi (c : GitlabCIClient) (net : Net α) (path : String)
    (query : List (String × QueryVal)) : Option α :=
  let response := net (requestUrl c path query)
  if response.status = 200 then some response.body else none

/-- A repository contributor as returned by the contributors endpoint;
`avatar_url` starts absent and may be filled in by enrichment. -/
structure ContributorData where
  name : String
  email : String
  commits : Nat
  additions : Nat
  deletions : Nat
  avatar_url : Option String
deriving DecidableEq, Repr

/-- A user directory entry returned by the `users` search endpoint. -/
structure UserProfile where
  name : String
  username : String
  avatar_url : Option String
deriving DecidableEq, Repr

/-- The body of the inner `forEach` of `getUserProfilesData`, folded over
the user-search results: every entry whose `name` equals the contributor's
`name` overwrites `avatar_url` with its own `avatar_url`. -/
def enrichContributor (cd : ContributorData) (userProfile : List UserProfile) :
    ContributorData :=
  userProfile.foldl
    (fun acc userProfileElement =>
      if userProfileElement.name = acc.name then
        { acc with avatar_url := userProfileElement.avatar_url }
      else acc)
    cd

/-- `getUserProfilesData`: for each contributor in order, search `users`
with `search=email`; if the call returns data, run the `forEach` merge,
otherwise leave the contributor untouched. -/
def getUserProfilesData (c : GitlabCIClient) (net : Net (List UserProfile))
    (contributorsData : List ContributorData) : List ContributorData :=
  contributorsData.map (fun cd =>
    match callApi c net "users" [("search", QueryVal.str cd.email)] with
    | none => cd
    | some userProfile => enrichContributor cd userProfile)

/-- A pipeline record; `project_name` is the derived annotation field. -/
structure PipelineObject where
  id : Int
  status : String
  project_name : Option String
deriving DecidableEq, Repr

/-- An issue record; `project_name` is the derived annotation field. -/
structure IssueObject where
  id : Int
  title : String
  project_name : Option String
deriving DecidableEq, Repr

/-- The project metadata record, of which only `name` is read
(`projectObj?.name`; the field itself may be missing). -/
structure ProjectRecord where
  name : Option String
deriving DecidableEq, Repr

/-- A merge-request record (pass-through). -/
structure MergeRequest where
  id : Int
  title : String
deriving DecidableEq, Repr

/-- The object literal `{ getPipelinesData: pipelineObjects! }`: the `!`
is an unchecked cast, so the field can still be `null` at runtime. -/
structure PipelineSummary where
  getPipelinesData : Option (List PipelineObject)
deriving DecidableEq, Repr

/-- The object literal `{ getIssuesData: issuesObject! }`. -/
structure IssuesSummary where
  getIssuesData : Option (List IssueObject)
deriving DecidableEq, Repr

/-- The object literal `{ getMergeRequestsStatusData: mergeRequestsList! }`. -/
structure MergeRequestsStatusSummary where
  getMergeRequestsStatusData : Option (List MergeRequest)
deriving DecidableEq, Repr

/-- `getPipelineSummary`: fetch the pipeline list, fetch the project, and
set `project_name := projectObj?.name` on every element of a non-null
list. -/
def getPipelineSummary (c : GitlabCIClient) (netPipelines : Net (List PipelineObject))
    (netProject : Net ProjectRecord) (projectID : Option String) : PipelineSummary :=
  let pipelineObjects :=
    callApi c netPipelines ("projects/" ++ jsShowOpt projectID ++ "/pipelines") []
  let projectObj := callApi c netProject ("projects/" ++ jsShowOpt projectID) []
  let pipelineObjects :=
    match pipelineObjects with
    | none => none
    | some elements =>
        some (elements.map (fun element =>
          { element with project_name := projectObj.bind (fun p => p.name) }))
  { getPipelinesData := pipelineObjects }

/-- `getIssuesSummary`: same annotation step over the issues list. -/
def getIssuesSummary (c : GitlabCIClient) (netIssues : Net (List IssueObject))
    (netProject : Net ProjectRecord) (projectId : Option String) : IssuesSummary :=
  let issuesObject :=
    callApi c netIssues ("projects/" ++ jsShowOpt projectId ++ "/issues") []
  let projectObj := callApi c netProject ("projects/" ++ jsShowOpt projectId) []
  let issuesObject :=
    match issuesObject with
    | none => none
    | some elements =>
        some (elements.map (fun element =>
          { element with project_name := projectObj.bind (fun p => p.name) }))
  { getIssuesData := issuesObject }

/-- `getMergeRequestsStatusSummary`: fetches the merge-request list with
`{ per_page: count }`, `count` possibly `undefined`. -/
def getMergeRequestsStatusSummary (c : GitlabCIClient) (net : Net (List MergeRequest))
    (projectID : Option String) (count : Option Int) : MergeRequestsStatusSummary :=
  let mergeRequestsList :=
    callApi c net ("projects/" ++ jsShowOpt projectID ++ "/merge_requests")
      [("per_page", match count with | some n => QueryVal.num n | none => QueryVal.undef)]
  { getMergeRequestsStatusData := mergeRequestsList }

/-- A parsed CODEOWNERS line: a pattern and its owner tokens. -/
structure OwnerEntry where
  pattern : String
  owners : List String
deriving DecidableEq, Repr

/-- Split a character list on a separator character. -/
def splitOnChar (sep : Char) (xs : List Char) : List (List Char) :=
  match xs with
  | [] => [[]]
  | x :: rest =>
      let r := splitOnChar sep rest
      if x = sep then [] :: r
      else
        match r with
        | [] => [[x]]
        | y :: ys => (x :: y) :: ys

/-- Modelled from the spec: `parseCodeOwners` is imported from
`src/components/utils`, which is not among the sources; the spec treats it
as a pure boundary turning CODEOWNERS text into `{pattern, owners}` lines
(simple line/pattern parsing, comments and blank lines ignored), with the
guarantee that parsing an empty string yields an empty ownership list. -/
def parseCodeOwners (text : String) : List OwnerEntry :=
  (splitOnChar (Char.ofNat 10) text.data).filterMap (fun line =>
    let words := ((splitOnChar (Char.ofNat 32) line).filter (fun w => w ≠ [])).map String.mk
    match words with
    | [] => none
    | p :: os => if jsStartsWith p "#" then none else some { pattern := p, owners := os })

/-- The `// Removing starting './'` step of `getCodeOwners`. -/
def stripLeadingDotSlash (filePath : String) : String :=
  if jsStartsWith filePath "./" then jsSlice filePath 2 else filePath

/-- The resource path `getCodeOwners` fetches for a (already defaulted)
`filePath` argument. -/
def codeOwnersFetchPath (projectID : Option String) (filePath : String) : String :=
  "projects/" ++ jsShowOpt projectID ++ "/repository/files/"
    ++ encodeURI (stripLeadingDotSlash filePath) ++ "/raw"

/-- `getCodeOwners`: default the path, strip one leading `./`, fetch the
raw file with `ref=branch`, fall back to the empty string (`|| ''`), and
parse.  The parse function is the imported `parseCodeOwners` boundary. -/
def getCodeOwners (c : GitlabCIClient) (net : Net String)
    (parse : String → List OwnerEntry) (projectID : Option String)
    (branch : String := "HEAD") (filePathArg : Option String := none) :
    List OwnerEntry :=
  let filePath := filePathArg.getD c.codeOwnersPath
  let codeOwnersStr :=
    callApi c net (codeOwnersFetchPath projectID filePath)
      [("ref", QueryVal.str branch)]
  parse (jsOrString codeOwnersStr "")

/-- A user record returned by the `users?username=` endpoint; no field of
it is inspected by `getUserDetail`. -/
structure UserDetail where
  name : String
  username : String
  avatar_url : Option String
deriving DecidableEq, Repr

/-- The `@`-stripping step of `getUserDetail`. -/
def stripLeadingAt (username : String) : String :=
  if jsStartsWith username "@" then jsSlice username 1 else username

/-- `getUserDetail`: strip one leading `@`, search `users` with
`username=`, take the first candidate (`?.[0]`), and throw
`user ... does not exist` when there is none. -/
def getUserDetail (c : GitlabCIClient) (net : Net (List UserDetail))
    (username : String) : Except String UserDetail :=
  let username := stripLeadingAt username
  let userDetail :=
    (callApi c net "users" [("username", QueryVal.str username)]).bind List.head?
  match userDetail with
  | none => Except.error ("user " ++ username ++ " does not exist")
  | some u => Except.ok u

/-! ### Specification-side definitions and concrete test fixtures -/

/-- The enrichment rule as the spec words it: `avatar_url` becomes the
`avatar_url` of the FIRST user-search entry whose `name` exactly equals
the contributor's `name`; with no match it is unchanged. -/
def firstMatchAvatar (cd : ContributorData) (userProfile : List UserProfile) :
    Option String :=
  match userProfile.find? (fun q => q.name = cd.name) with
  | some q => q.avatar_url
  | none => cd.avatar_url

/-- What the `forEach` merge actually computes: the LAST matching entry
wins (each later match overwrites the earlier ones). -/
def lastMatchAvatar (cd : ContributorData) (userProfile : List UserProfile) :
    Option String :=
  match userProfile.reverse.find? (fun q => q.name = cd.name) with
  | some q => q.avatar_url
  | none => cd.avatar_url

/-- A client built with every configuration argument defaulted. -/
def sampleClient : GitlabCIClient :=
  GitlabCIClient.make "http://localhost:7007/api/proxy" none none none

/-- Two user-search entries with the same display name but different
avatars. -/
def twoMatchProfiles : List UserProfile :=
  [ { name := "Alice A", username := "alice1", avatar_url := some "https://img/1.png" },
    { name := "Alice A", username := "alice2", avatar_url := some "https://img/2.png" } ]

/-- A network whose user search always succeeds with `twoMatchProfiles`. -/
def twoMatchNet : Net (List UserProfile) :=
  fun _ => { status := 200, body := twoMatchProfiles }

/-- A contributor named like both entries of `twoMatchProfiles`. -/
def aliceContributor : ContributorData :=
  { name := "Alice A", email := "alice@x.com", commits := 3, additions := 10,
    deletions := 2, avatar_url := none }

/-- The URL the claim predicts for a merge-request status fetch with an
`undefined` count: no `per_page` parameter at all. -/
def mrStatusOmittedUrl : String :=
  "http://localhost:7007/api/proxy/gitlabci/projects/1/merge_requests?"

/-- A network that only answers the `per_page`-less URL. -/
def omittingNet : Net (List MergeRequest) :=
  fun url =>
    if url = mrStatusOmittedUrl then { status := 200, body := [] }
    else { status := 404, body := [] }

/-- A network returning a fixed status with a dummy numeric body. -/
def statusNet (st : Nat) : Net Nat :=
  fun _ => { status := st, body := 7 }

/-- A network on which every fetch fails with 404. -/
def missing404Net : Net String :=
  fun _ => { status := 404, body := "" }

/-- A user search that succeeds with an empty candidate list. -/
def emptyUsersNet : Net (List UserDetail) :=
  fun _ => { status := 200, body := [] }

/-- Two distinct user records. -/
def sampleUser : UserDetail :=
  { name := "Alice A", username := "alice", avatar_url := some "https://img/a.png" }

/-- A second user record, returned after `sampleUser` by `twoUsersNet`. -/
def sampleUser2 : UserDetail :=
  { name := "Alice B", username := "alice-b", avatar_url := none }

/-- A user search that succeeds with two candidates. -/
def twoUsersNet : Net (List UserDetail) :=
  fun _ => { status := 200, body := [sampleUser, sampleUser2] }

/-- Two pipeline records with no annotation yet. -/
def pipeA : PipelineObject := { id := 11, status := "success", project_name := none }

/-- Second pipeline record. -/
def pipeB : PipelineObject := { id := 12, status := "failed", project_name := none }

/-- A network serving the two pipelines. -/
def pipelinesNet : Net (List PipelineObject) :=
  fun _ => { status := 200, body := [pipeA, pipeB] }

/-- A project fetch that fails with 404. -/
def project404Net : Net ProjectRecord :=
  fun _ => { status := 404, body := { name := none } }

/-- An issue record with no annotation yet. -/
def issueA : IssueObject := { id := 21, title := "crash", project_name := none }

/-- A network serving the single issue. -/
def issuesNet : Net (List IssueObject) :=
  fun _ => { status := 200, body := [issueA] }

/-! ### Theorems -/

/-- The `foldl` of the inner `forEach` never changes the contributor's
`name`, and its final `avatar_url` is the last matching entry's. -/
theorem enrichContributor_eq_lastMatch (userProfile : List UserProfile)
    (cd : ContributorData) :
    enrichContributor cd userProfile
      = { cd with avatar_url := lastMatchAvatar cd userProfile } := by
  induction userProfile generalizing cd with
  | nil => rfl
  | cons p ps ih =>
    have hstep : enrichContributor cd (p :: ps)
        = enrichContributor
            (if p.name = cd.name then { cd with avatar_url := p.avatar_url } else cd)
            ps := by
      unfold enrichContributor
      simp only [List.foldl_cons]
    rw [hstep]
    by_cases hm : p.name = cd.name
    · rw [if_pos hm, ih]
      unfold lastMatchAvatar
      simp only [List.reverse_cons, List.find?_append]
      cases hfind : ps.reverse.find? (fun q => decide (q.name = cd.name)) with
      | none => simp [hfind, hm]
      | some q => simp [hfind]
    · rw [if_neg hm, ih]
      unfold lastMatchAvatar
      simp only [List.reverse_cons, List.find?_append]
      cases hfind : ps.reverse.find? (fun q => decide (q.name = cd.name)) with
      | none => simp [hfind, hm]
      | some q => simp [hfind]

/-- C1 counterexample: with a user-search response holding two entries
both named exactly like the contributor, the FIRST entry's avatar is
`https://img/1.png`, yet enrichment stores the SECOND (last) entry's
avatar `https://img/2.png` — so `avatar_url` is not the first matching
entry's. -/
theorem getUserProfilesData_not_first_match :
    callApi sampleClient twoMatchNet "users"
        [("search", QueryVal.str aliceContributor.email)] = some twoMatchProfiles
    ∧ firstMatchAvatar aliceContributor twoMatchProfiles = some "https://img/1.png"
    ∧ (getUserProfilesData sampleClient twoMatchNet [aliceContributor]).map
          (fun cd => cd.avatar_url)
        = [some "https://img/2.png"] := by
  refine ⟨rfl, by decide, by decide⟩

/-- C1 (amended): contributor enrichment sets each contributor's
`avatar_url` to the `avatar_url` of the LAST entry of that contributor's
user-search response whose `name` exactly equals the contributor's
`name`; if no entry's name matches (or the search yields no data),
`avatar_url` is unchanged, in particular it stays absent. -/
theorem getUserProfilesData_last_match (c : GitlabCIClient)
    (net : Net (List UserProfile)) (contributorsData : List ContributorData) :
    (getUserProfilesData c net contributorsData).map (fun cd => cd.avatar_url)
      = contributorsData.map (fun cd =>
          match callApi c net "users" [("search", QueryVal.str cd.email)] with
          | none => cd.avatar_url
          | some userProfile => lastMatchAvatar cd userProfile) := by
  unfold getUserProfilesData
  induction contributorsData with
  | nil => rfl
  | cons cd rest ih =>
    simp only [List.map_cons, List.map_map] at ih ⊢
    rw [ih]
    congr 1
    cases h : callApi c net "users" [("search", QueryVal.str cd.email)] with
    | none => rfl
    | some userProfile =>
        show (enrichContributor cd userProfile).avatar_url
          = lastMatchAvatar cd userProfile
        rw [enrichContributor_eq_lastMatch]

/-- C5: enrichment is a total function (it cannot raise), and each
contributor's result depends only on that contributor's own user-search
outcome: when the search yields no data the contributor is returned
unchanged (skipped), while every other position is still enriched by the
`forEach` merge; in particular the list keeps its length. -/
theorem getUserProfilesData_skips_failed (c : GitlabCIClient)
    (net : Net (List UserProfile)) (contributorsData : List ContributorData) :
    (getUserProfilesData c net contributorsData).length = contributorsData.length
    ∧ ∀ i : Nat,
        (getUserProfilesData c net contributorsData)[i]?
          = (contributorsData[i]?).map (fun cd =>
              match callApi c net "users" [("search", QueryVal.str cd.email)] with
              | none => cd
              | some userProfile => enrichContributor cd userProfile) := by
  constructor
  · simp [getUserProfilesData]
  · intro i
    simp [getUserProfilesData, List.getElem?_map]

/-- C2 counterexample: `URLSearchParams` does not omit `undefined`
values — the record binding stringifies them — so
`getMergeRequestsStatusSummary` with an undefined count issues
`...?per_page=undefined`; against a network that only answers the
parameter-less URL the claim predicts (the one ending in `?`), the call
comes back absent instead of with the served empty list. -/
theorem getMergeRequestsStatusSummary_undef_not_omitted :
    requestUrl sampleClient "projects/1/merge_requests"
        [("per_page", QueryVal.undef)]
      = "http://localhost:7007/api/proxy/gitlabci/projects/1/merge_requests?per_page=undefined"
    ∧ getMergeRequestsStatusSummary sampleClient omittingNet (some "1") none
        = { getMergeRequestsStatusData := none } := by
  exact ⟨by decide, by decide⟩

/-- C2 (amended): a query entry whose value is `undefined` is NOT
omitted: it is serialized with the literal text `undefined` as its value
(so `getMergeRequestsStatusSummary` with an undefined count sends
`per_page=undefined` for every client and project); the parameters appear
in insertion order of the supplied mapping. -/
theorem getMergeRequestsStatusSummary_undef_count (c : GitlabCIClient)
    (net : Net (List MergeRequest)) (projectID : Option String) :
    getMergeRequestsStatusSummary c net projectID none
      = { getMergeRequestsStatusData :=
            let response := net (c.discoveryBase ++ c.proxyPath ++ "/"
              ++ ("projects/" ++ jsShowOpt projectID ++ "/merge_requests")
              ++ "?" ++ "per_page=undefined")
            if response.status = 200 then some response.body else none }
    ∧ urlSearchParamsToString [("sort", QueryVal.str "desc"), ("per_page", QueryVal.num 20)]
        = "sort=desc&per_page=20" := by
  constructor
  · have hq : urlSearchParamsToString [("per_page", QueryVal.undef)]
        = "per_page=undefined" := by decide
    unfold getMergeRequestsStatusSummary callApi requestUrl
    rw [hq]
  · decide

/-- C3: for every path and query, `callApi` returns the decoded body
exactly when the response status is 200, and returns absent (it is a
total function, so nothing is thrown) for every other status. -/
theorem callApi_status_dichotomy {α : Type} (c : GitlabCIClient) (net : Net α)
    (path : String) (query : List (String × QueryVal)) :
    ((net (requestUrl c path query)).status = 200 →
        callApi c net path query = some (net (requestUrl c path query)).body)
    ∧ ((net (requestUrl c path query)).status ≠ 200 →
        callApi c net path query = none) := by
  unfold callApi
  constructor <;> intro h <;> simp [h]

/-- Witness for C3: a 200 response yields the body, while 404, 401 and
500 all yield absent. -/
theorem callApi_status_dichotomy_witness :
    callApi sampleClient (statusNet 200) "projects/1" [] = some 7
    ∧ callApi sampleClient (statusNet 404) "projects/1" [] = none
    ∧ callApi sampleClient (statusNet 401) "projects/1" [] = none
    ∧ callApi sampleClient (statusNet 500) "projects/1" [] = none :=
  ⟨(callApi_status_dichotomy sampleClient (statusNet 200) "projects/1" []).1 rfl,
   (callApi_status_dichotomy sampleClient (statusNet 404) "projects/1" []).2 (by decide),
   (callApi_status_dichotomy sampleClient (statusNet 401) "projects/1" []).2 (by decide),
   (callApi_status_dichotomy sampleClient (statusNet 500) "projects/1" []).2 (by decide)⟩

/-- C4: when every raw-file fetch fails (no file, no branch, or any
non-200 outcome, so `callApi` yields absent), `getCodeOwners` parses the
empty string (`|| ''`) and — since parsing an empty string yields an
empty ownership list — returns the empty list rather than an error. -/
theorem getCodeOwners_missing_file (c : GitlabCIClient) (net : Net String)
    (parse : String → List OwnerEntry) (projectID : Option String)
    (branch : String) (filePathArg : Option String)
    (hfail : ∀ url, (net url).status ≠ 200)
    (hempty : parse "" = []) :
    getCodeOwners c net parse projectID branch filePathArg = [] := by
  unfold getCodeOwners callApi
  simp [hfail, hempty, jsOrString]

/-- Witness for C4: a 404-everywhere network together with the
spec-modelled `parseCodeOwners` gives the empty ownership list. -/
theorem getCodeOwners_missing_file_witness :
    getCodeOwners sampleClient missing404Net parseCodeOwners (some "42") "HEAD" none
      = [] :=
  getCodeOwners_missing_file sampleClient missing404Net parseCodeOwners (some "42")
    "HEAD" none (fun _ => by simp [missing404Net]) (by decide)

/-- C6: `getCodeOwners` strips a single leading `./` exactly once: for
every client, network, parse function, project and branch, calling it
with `./OWNERS` behaves identically to calling it with `OWNERS`, while
`././X` is stripped only to `./X` and fetched under the resource path
`projects/1/repository/files/./X/raw`. -/
theorem getCodeOwners_strips_dot_slash_once (c : GitlabCIClient)
    (net : Net String) (parse : String → List OwnerEntry)
    (projectID : Option String) (branch : String) :
    getCodeOwners c net parse projectID branch (some "./OWNERS")
        = getCodeOwners c net parse projectID branch (some "OWNERS")
    ∧ stripLeadingDotSlash "./OWNERS" = "OWNERS"
    ∧ stripLeadingDotSlash "././X" = "./X"
    ∧ codeOwnersFetchPath (some "1") "././X"
        = "projects/1/repository/files/./X/raw" := by
  have h1 : stripLeadingDotSlash "./OWNERS" = stripLeadingDotSlash "OWNERS" := by
    decide
  refine ⟨?_, by decide, by decide, by decide⟩
  simp only [getCodeOwners, codeOwnersFetchPath, Option.getD_some, h1]

/-- C7: `getUserDetail` fails (with the `user ... does not exist` error)
exactly when the username search yields no candidate — either because the
call returned absent or because the candidate list is empty — and when the
search returns one or more candidates it returns the first one, with no
disambiguation. -/
theorem getUserDetail_notFound_iff (c : GitlabCIClient)
    (net : Net (List UserDetail)) (username : String) :
    ((∃ e, getUserDetail c net username = Except.error e) ↔
        (callApi c net "users" [("username", QueryVal.str (stripLeadingAt username))]
            = none
         ∨ callApi c net "users" [("username", QueryVal.str (stripLeadingAt username))]
            = some []))
    ∧ ∀ (u : UserDetail) (us : List UserDetail),
        callApi c net "users" [("username", QueryVal.str (stripLeadingAt username))]
            = some (u :: us) →
          getUserDetail c net username = Except.ok u := by
  unfold getUserDetail
  cases h : callApi c net "users" [("username", QueryVal.str (stripLeadingAt username))] with
  | none => simp [h]
  | some l => cases l <;> simp [h]

/-- Witness for C7: an empty search result raises the not-found error,
and a two-candidate search returns the first candidate. -/
theorem getUserDetail_notFound_iff_witness :
    (∃ e, getUserDetail sampleClient emptyUsersNet "nobody" = Except.error e)
    ∧ getUserDetail sampleClient twoUsersNet "alice" = Except.ok sampleUser :=
  ⟨(getUserDetail_notFound_iff sampleClient emptyUsersNet "nobody").1.mpr
      (Or.inr rfl),
   (getUserDetail_notFound_iff sampleClient twoUsersNet "alice").2 sampleUser
      [sampleUser2] rfl⟩

/-- C8: `getUserDetail` strips a single leading `@`: for every client and
user-search stub, `getUserDetail "@alice"` issues the same search query
(the same request URL) as `getUserDetail "alice"` and returns the same
result. -/
theorem getUserDetail_strips_at (c : GitlabCIClient)
    (net : Net (List UserDetail)) :
    stripLeadingAt "@alice" = stripLeadingAt "alice"
    ∧ requestUrl c "users" [("username", QueryVal.str (stripLeadingAt "@alice"))]
        = requestUrl c "users" [("username", QueryVal.str (stripLeadingAt "alice"))]
    ∧ getUserDetail c net "@alice" = getUserDetail c net "alice" := by
  have h : stripLeadingAt "@alice" = stripLeadingAt "alice" := by decide
  refine ⟨h, by rw [h], ?_⟩
  unfold getUserDetail
  rw [h]

/-- C9: in `getPipelineSummary` and `getIssuesSummary`, whenever the list
fetch produced elements, every element's `project_name` equals the `name`
of the separately fetched parent project — so it is the project's display
name when that fetch succeeded and absent when it failed — and the call
always returns a summary object (it cannot fail). -/
theorem annotation_sets_project_name (c : GitlabCIClient)
    (netPipelines : Net (List PipelineObject)) (netIssues : Net (List IssueObject))
    (netProject : Net ProjectRecord) (projectID : Option String) :
    (∀ xs, (getPipelineSummary c netPipelines netProject projectID).getPipelinesData
          = some xs →
        ∀ e ∈ xs, e.project_name
          = (callApi c netProject ("projects/" ++ jsShowOpt projectID) []).bind
              (fun p => p.name))
    ∧ (∀ xs, (getIssuesSummary c netIssues netProject projectID).getIssuesData
          = some xs →
        ∀ e ∈ xs, e.project_name
          = (callApi c netProject ("projects/" ++ jsShowOpt projectID) []).bind
              (fun p => p.name)) := by
  constructor
  · intro xs hxs e he
    unfold getPipelineSummary at hxs
    cases hfetch : callApi c netPipelines
        ("projects/" ++ jsShowOpt projectID ++ "/pipelines") [] with
    | none => simp [hfetch] at hxs
    | some elements =>
        simp only [hfetch, Option.some.injEq] at hxs
        subst hxs
        rcases List.mem_map.mp he with ⟨e0, _, rfl⟩
        rfl
  · intro xs hxs e he
    unfold getIssuesSummary at hxs
    cases hfetch : callApi c netIssues
        ("projects/" ++ jsShowOpt projectID ++ "/issues") [] with
    | none => simp [hfetch] at hxs
    | some elements =>
        simp only [hfetch, Option.some.injEq] at hxs
        subst hxs
        rcases List.mem_map.mp he with ⟨e0, _, rfl⟩
        rfl

/-- Witness for C9: with a 404 project fetch, both pipelines and the
issue come back with `project_name` absent. -/
theorem annotation_sets_project_name_witness :
    (∀ e ∈ [{ pipeA with project_name := (none : Option String) },
            { pipeB with project_name := (none : Option String) }],
        PipelineObject.project_name e
          = (callApi sampleClient project404Net "projects/1" []).bind
              (fun p => p.name))
    ∧ ∀ e ∈ [{ issueA with project_name := (none : Option String) }],
        IssueObject.project_name e
          = (callApi sampleClient project404Net "projects/1" []).bind
              (fun p => p.name) :=
  ⟨(annotation_sets_project_name sampleClient pipelinesNet issuesNet project404Net
      (some "1")).1 _ (by decide),
   (annotation_sets_project_name sampleClient pipelinesNet issuesNet project404Net
      (some "1")).2 _ (by decide)⟩

/-- C10: `baseUrl` is normalized at construction to end with `/`, but no
request ever uses it: two clients that differ only in `baseUrl` build the
same request URL for every path and query, and every modelled accessor
issues identical requests and returns identical results on every network. -/
theorem baseUrl_never_used {α : Type} (discoveryBase : String)
    (b1 b2 proxyPath codeOwnersPath : Option String) :
    (∀ b, jsEndsWith
        (GitlabCIClient.make discoveryBase (some b) proxyPath codeOwnersPath).baseUrl
        "/" = true)
    ∧ (∀ path query,
        requestUrl (GitlabCIClient.make discoveryBase b1 proxyPath codeOwnersPath)
            path query
          = requestUrl (GitlabCIClient.make discoveryBase b2 proxyPath codeOwnersPath)
              path query)
    ∧ (∀ (net : Net α) path query,
        callApi (GitlabCIClient.make discoveryBase b1 proxyPath codeOwnersPath)
            net path query
          = callApi (GitlabCIClient.make discoveryBase b2 proxyPath codeOwnersPath)
              net path query)
    ∧ (∀ net username,
        getUserDetail (GitlabCIClient.make discoveryBase b1 proxyPath codeOwnersPath)
            net username
          = getUserDetail (GitlabCIClient.make discoveryBase b2 proxyPath codeOwnersPath)
              net username)
    ∧ (∀ net parse projectID branch filePathArg,
        getCodeOwners (GitlabCIClient.make discoveryBase b1 proxyPath codeOwnersPath)
            net parse projectID branch filePathArg
          = getCodeOwners (GitlabCIClient.make discoveryBase b2 proxyPath codeOwnersPath)
              net parse projectID branch filePathArg)
    ∧ (∀ net contributorsData,
        getUserProfilesData
            (GitlabCIClient.make discoveryBase b1 proxyPath codeOwnersPath)
            net contributorsData
          = getUserProfilesData
              (GitlabCIClient.make discoveryBase b2 proxyPath codeOwnersPath)
              net contributorsData)
    ∧ (∀ net projectID count,
        getMergeRequestsStatusSummary
            (GitlabCIClient.make discoveryBase b1 proxyPath codeOwnersPath)
            net projectID count
          = getMergeRequestsStatusSummary
              (GitlabCIClient.make discoveryBase b2 proxyPath codeOwnersPath)
              net projectID count)
    ∧ (∀ netPipelines netProject projectID,
        getPipelineSummary
            (GitlabCIClient.make discoveryBase b1 proxyPath codeOwnersPath)
            netPipelines netProject projectID
          = getPipelineSummary
              (GitlabCIClient.make discoveryBase b2 proxyPath codeOwnersPath)
              netPipelines netProject projectID)
    ∧ (∀ netIssues netProject projectID,
        getIssuesSummary
            (GitlabCIClient.make discoveryBase b1 proxyPath codeOwnersPath)
            netIssues netProject projectID
          = getIssuesSummary
              (GitlabCIClient.make discoveryBase b2 proxyPath codeOwnersPath)
              netIssues netProject projectID) := by
  refine ⟨?_, fun _ _ => rfl, fun _ _ _ => rfl, fun _ _ => rfl,
    fun _ _ _ _ _ => rfl, fun _ _ => rfl, fun _ _ _ => rfl,
    fun _ _ _ => rfl, fun _ _ _ => rfl⟩
  intro b
  unfold GitlabCIClient.make
  by_cases hb : jsEndsWith b "/"
  · simp [hb]
  · simp only [Option.getD_some, hb, Bool.false_eq_true, if_false]
    simp [jsEndsWith, List.isPrefixOf]

end GitlabCI
